import Mathlib

/-!
Verification development for the crit/fumble tables module.

Shallow embedding of the tier classifier, attack classifier, table-result
parsing and the effects manager (condition / damage / save / penalty /
advantage dispatch), translated from the TypeScript sources:
`src/constants` (tier breakpoints), `src/services/TableSelector.ts`,
`src/types/midi-qol` (attack classification) and
`src/services/EffectsManager.ts`.

Numbers coming from the host are modelled as rationals (the host uses
IEEE doubles, but every comparison in the translated code is an order
comparison, so any linearly ordered field is a faithful carrier; the
concrete inputs exercised are small integers). Optional / possibly
`undefined` fields are modelled as `Option`; JavaScript string
truthiness (`""` is falsy) is modelled explicitly where the source
relies on it.
-/

/-- Tier from actor level, from `getTierFromLevel` in `src/constants`:
level <= 4 gives 1, <= 8 gives 2, <= 12 gives 3, otherwise 4. -/
def getTierFromLevel (level : ℚ) : ℕ :=
  if level ≤ 4 then 1
  else if level ≤ 8 then 2
  else if level ≤ 12 then 3
  else 4

/-- Tier from challenge rating, from `getTierFromCR` in `src/constants`. -/
def getTierFromCR (cr : ℚ) : ℕ :=
  if cr ≤ 4 then 1
  else if cr ≤ 8 then 2
  else if cr ≤ 12 then 3
  else 4

/-- Relevant module settings, read by the translated code through
`useActorLevel()`, `getConfiguredTier()` and `shouldApplyEffects()`
(`src/settings`). -/
structure Settings where
  applyEffects : Bool
  useActorLevel : Bool
  fixedTier : ℕ
deriving DecidableEq, Repr

namespace TableSelector

/-- CR branch of `TableSelector.getTier`: the part after the level check
failed (`actorCR !== undefined && actorCR >= 0` or fall through to the
configured fixed tier). -/
def getTierCRBranch (s : Settings) (actorCR : Option ℚ) : ℕ :=
  match actorCR with
  | some cr => if 0 ≤ cr then getTierFromCR cr else s.fixedTier
  | none => s.fixedTier

/-- `TableSelector.getTier(actorLevel?, actorCR?)`
(`src/services/TableSelector.ts`): with `useActorLevel` on, a defined
level strictly greater than 0 selects the level breakpoints, else a
defined CR at least 0 selects the CR breakpoints, else the configured
fixed tier; with the flag off, always the configured fixed tier. -/
def getTier (s : Settings) (actorLevel actorCR : Option ℚ) : ℕ :=
  if s.useActorLevel then
    match actorLevel with
    | some lvl => if 0 < lvl then getTierFromLevel lvl else getTierCRBranch s actorCR
    | none => getTierCRBranch s actorCR
  else s.fixedTier

end TableSelector

/-! ## Attack classifier (`src/types/midi-qol`) -/

/-- The nested `activity.attack.type` object of a structured D&D5e
activity: `value` is melee/ranged, `classification` is weapon/spell. -/
structure AttackTypeDecl where
  value : Option String
  classification : Option String
deriving DecidableEq, Repr

/-- One activity of an item. `attackType = some t` models the source
condition `activity.attack?.type` being a present (truthy) object. -/
structure DnD5eActivity where
  attackType : Option AttackTypeDecl
deriving DecidableEq, Repr

/-- The parts of an item that the translated code reads.
`activities` is the structured activities collection (`none` models an
absent collection; the Map / plain-object / forEach normalisation in the
source all produce the same list of activities).
`legacyActionType` is the legacy single action-type code
(`system.actionType`) that older host versions store on items; it is
carried in the data model so claims about it can be stated.
`damageParts` is `system.damage.parts`, a list of (formula, type) pairs. -/
structure MidiItem where
  type : String
  activities : Option (List DnD5eActivity)
  legacyActionType : Option String
  damageParts : List (String × String)
deriving DecidableEq, Repr

/-- `getActionType(item)` (`src/types/midi-qol`): scan the structured
activities for the first one carrying an attack type and combine its
melee/ranged value with its weapon/spell classification; with no such
activity, fall back on the item type alone (spell items give `rsak`,
weapon items `mwak`, anything else no action type). -/
def getActionType (item : MidiItem) : Option String :=
  let activityList := item.activities.getD []
  match activityList.find? (fun a => a.attackType.isSome) with
  | some act =>
    match act.attackType with
    | some t =>
      let isRanged := t.value = some "ranged"
      let isSpell := t.classification = some "spell"
      if isSpell then
        some (if isRanged then "rsak" else "msak")
      else
        some (if isRanged then "rwak" else "mwak")
    | none => none
  | none =>
    if item.type = "spell" then some "rsak"
    else if item.type = "weapon" then some "mwak"
    else none

/-- `isSpellAttack` (`src/types/midi-qol`). -/
def isSpellAttack (item : MidiItem) : Bool :=
  getActionType item = some "msak" ∨ getActionType item = some "rsak"

/-- `isRangedAttack` (`src/types/midi-qol`). -/
def isRangedAttack (item : MidiItem) : Bool :=
  getActionType item = some "rwak" ∨ getActionType item = some "rsak"

namespace TableSelector

/-- `TableSelector.getAttackType(item)`
(`src/services/TableSelector.ts`): spell attacks first, then ranged,
default melee. -/
def getAttackType (item : MidiItem) : String :=
  if isSpellAttack item then "spell"
  else if isRangedAttack item then "ranged"
  else "melee"

/-- First index at which the three character separator `" - "` occurs in
a character list; `none` when it never occurs. Models
`resultText.indexOf(' - ')` (with `none` standing for the JavaScript
result `-1`). -/
def idxOfSep : List Char → Option ℕ
  | [] => none
  | c :: rest =>
    if [' ', '-', ' '].isPrefixOf (c :: rest) then some 0
    else (idxOfSep rest).map (· + 1)

/-- The name/description split performed on a drawn entry text inside
`TableSelector.rollOnTable` (`src/services/TableSelector.ts`):
`dashIndex = resultText.indexOf(' - ')`; a strictly positive index
splits the text around the separator, otherwise the whole text is the
name (or `"Unknown Result"` for empty text) and the description is
empty. -/
def parseResultText (text : String) : String × String :=
  let cs := text.toList
  let dashIndex : ℤ := match idxOfSep cs with
    | some i => (i : ℤ)
    | none => -1
  if 0 < dashIndex then
    (String.mk (cs.take dashIndex.toNat), String.mk (cs.drop (dashIndex.toNat + 3)))
  else
    (if text = "" then "Unknown Result" else text, "")

end TableSelector

/-! ## Effects manager data model (`src/services/EffectsManager.ts`) -/

/-- The effect kind tag of a table entry (`EFFECT_TYPES` in
`src/constants`). -/
inductive EffectType where
  | none
  | condition
  | damage
  | save
  | disarm
  | penalty
  | advantage
  | disadvantage
deriving DecidableEq, Repr

/-- `config.advantageScope` may hold a single scope token or an array of
them (the source normalises with `Array.isArray`). -/
inductive ScopeField where
  | one (s : String)
  | many (l : List String)
deriving DecidableEq, Repr

/-- The per-entry effect configuration (`TableEffectConfig` in
`src/types`), as read from the drawn entry's module flags. Optional
fields are `Option`; numbers are integers or rationals as used. -/
structure TableEffectConfig where
  effectType : EffectType
  effectCondition : Option String := .none
  damageFormula : Option String := .none
  damageType : Option String := .none
  duration : Option ℤ := .none
  saveDC : Option ℚ := .none
  saveAbility : Option String := .none
  penaltyType : Option String := .none
  penaltyValue : Option ℤ := .none
  advantageScope : Option ScopeField := .none
  advantageTarget : Option String := .none
  effectName : Option String := .none
deriving DecidableEq, Repr

/-- The slice of a rolled result that `applyResult` reads: the module
flag block of the drawn entry (`result.result.flags?.[MODULE_ID]`) and
the entry icon (`result.result.img`). -/
structure RolledResult where
  flags : Option TableEffectConfig
  img : Option String := .none
deriving DecidableEq, Repr

/-- An actor document: its uuid and the set of active status ids. -/
structure Actor where
  uuid : String := ""
  statuses : List String := []
deriving DecidableEq, Repr

/-- A token; `actor` is `none` when the token has no actor. -/
structure Token where
  name : String := ""
  actor : Option Actor := .none
deriving DecidableEq, Repr

/-- The combat clock (`game.combat`), absent outside combat. -/
structure Combat where
  round : ℤ
  turn : ℤ
deriving DecidableEq, Repr

/-- `game.combat?.round ?? 0`. -/
def curRound : Option Combat → ℤ
  | some c => c.round
  | none => 0

/-- `game.combat?.turn ?? 0`. -/
def curTurn : Option Combat → ℤ
  | some c => c.turn
  | none => 0

/-- The host's active-effect change modes (`CONST.ACTIVE_EFFECT_MODES`,
declared in the host interface shim and mocked in the test suite). -/
inductive Mode where
  | CUSTOM
  | MULTIPLY
  | ADD
  | DOWNGRADE
  | UPGRADE
  | OVERRIDE
deriving DecidableEq, Repr

/-- One entry of an effect document's change array. -/
structure Change where
  key : String
  mode : Mode
  value : String
deriving DecidableEq, Repr

/-- The duration block of an effect document. A field that is `none` is
absent from the built record; `some .none` models an explicit JavaScript
`null`. -/
structure DurationData where
  seconds : Option (Option ℤ) := .none
  rounds : Option (Option ℤ) := .none
  turns : Option ℤ := .none
  startTurn : Option ℤ := .none
  startRound : Option ℤ := .none
deriving DecidableEq, Repr

/-- The parts of a created active-effect document that the translated
code fills in (condition documents carry no changes array, modelled as
`[]`). -/
structure EffectDoc where
  name : String
  icon : String
  origin : String
  changes : List Change := []
  duration : DurationData
deriving DecidableEq, Repr

/-- The host-level primitives the effects manager invokes: toggling a
built-in status, creating an effect document, and applying rolled
damage (recorded as the resolved formula and resolved damage type). -/
inductive HostCall where
  | toggleStatus (statusId : String)
  | createEffect (doc : EffectDoc)
  | applyTokenDamage (formula : String) (damageType : String)
deriving DecidableEq, Repr

/-- JavaScript string truthiness of an optional string field:
`undefined` and `""` are falsy. -/
def strTruthy : Option String → Bool
  | some s => s ≠ ""
  | none => false

/-- JavaScript `a || b` on an optional string: keep `a` when present and
non-empty, else `b`. -/
def orDefault (a : Option String) (b : String) : String :=
  match a with
  | some s => if s = "" then b else s
  | none => b

/-- ASCII lower-casing of a string, character by character (the
JavaScript `toLowerCase()` on the ASCII identifiers this code handles).
Written out on the character list so it evaluates by kernel
reduction. -/
def lowerString (s : String) : String := String.mk (s.toList.map Char.toLower)

namespace EffectsManager

/-- The fixed list of standard D&D5e condition identifiers
(`isStandardCondition` in `src/services/EffectsManager.ts`). -/
def standardConditions : List String :=
  ["blinded", "charmed", "deafened", "frightened", "grappled",
   "incapacitated", "invisible", "paralyzed", "petrified", "poisoned",
   "prone", "restrained", "stunned", "unconscious", "exhaustion"]

/-- `isStandardCondition(condition)`: case-insensitive membership in the
fixed list. -/
def isStandardCondition (condition : String) : Bool :=
  standardConditions.contains (lowerString condition)

/-- `formatConditionName`: first character upper-cased, rest
lower-cased. -/
def formatConditionName (condition : String) : String :=
  match condition.toList with
  | [] => ""
  | c :: rest => String.mk (c.toUpper :: rest.map Char.toLower)

/-- `getConditionIcon`: icon lookup by lower-cased condition name with a
generic fallback. -/
def getConditionIcon (condition : String) : String :=
  match lowerString condition with
  | "prone" => "icons/svg/falling.svg"
  | "stunned" => "icons/svg/daze.svg"
  | "blinded" => "icons/svg/blind.svg"
  | "deafened" => "icons/svg/deaf.svg"
  | "frightened" => "icons/svg/terror.svg"
  | "grappled" => "icons/svg/net.svg"
  | "incapacitated" => "icons/svg/paralysis.svg"
  | "paralyzed" => "icons/svg/paralysis.svg"
  | "poisoned" => "icons/svg/poison.svg"
  | "restrained" => "icons/svg/net.svg"
  | "unconscious" => "icons/svg/unconscious.svg"
  | "exhaustion" => "icons/svg/downgrade.svg"
  | "fatigued" => "icons/svg/downgrade.svg"
  | _ => "icons/svg/status.svg"

/-- The duration block built for a custom condition document inside
`applyCondition`: `-1` gives explicit null seconds and rounds, `0` gives
one turn anchored to the current combat turn and round, anything else
gives that many rounds anchored likewise. -/
def conditionDurationData (duration : ℤ) (combat : Option Combat) : DurationData :=
  if duration = -1 then
    { seconds := some .none, rounds := some .none }
  else if duration = 0 then
    { turns := some 1, startTurn := some (curTurn combat), startRound := some (curRound combat) }
  else
    { rounds := some (some duration), startRound := some (curRound combat),
      startTurn := some (curTurn combat) }

/-- `applyStandardCondition(token, conditionName, duration)`: toggle the
lower-cased status id on, but only when it is not already active on the
token's actor (the duration argument is only logged). A missing actor
makes the toggle call throw, which the surrounding catch swallows. -/
def applyStandardCondition (token : Token) (conditionName : String) : List HostCall :=
  let statusId := lowerString conditionName
  match token.actor with
  | some actor =>
    if actor.statuses.contains statusId then []
    else [.toggleStatus statusId]
  | none => []

/-- `applyCondition(token, config, resultIcon)`: no-op without a (truthy)
condition name or an actor; standard conditions delegate to the status
toggle, custom conditions create an active-effect document whose
duration follows the sentinel rules. -/
def applyCondition (token : Token) (config : TableEffectConfig)
    (resultIcon : Option String) (combat : Option Combat) : List HostCall :=
  match config.effectCondition, token.actor with
  | some conditionName, some actor =>
    if conditionName = "" then []
    else
      let duration := config.duration.getD 1
      if isStandardCondition conditionName then
        applyStandardCondition token conditionName
      else
        [.createEffect {
          name := formatConditionName conditionName,
          icon := orDefault resultIcon (getConditionIcon conditionName),
          origin := actor.uuid,
          duration := conditionDurationData duration combat }]
  | _, _ => []

/-- Numeric value of a decimal digit run (`parseInt(digits, 10)`). -/
def digitsVal (ds : List Char) : ℕ :=
  ds.foldl (fun n c => 10 * n + (c.toNat - 48)) 0

/-- Match of the anchored pattern digits-then-suffix-letter
(`/^(\d+)W$/i` with `cUp`/`cLo` the two cases of the letter): the whole
string must be a non-empty digit run followed by the single letter;
yields the parsed count. -/
def matchDiceCount (cUp cLo : Char) (s : String) : Option ℕ :=
  let cs := s.toList
  match cs.getLast? with
  | some c =>
    if (c = cUp ∨ c = cLo) ∧ cs.dropLast ≠ [] ∧ cs.dropLast.all Char.isDigit
    then some (digitsVal cs.dropLast)
    else none
  | none => none

/-- First match of `/d(\d+)/i` in a character list: the digit run after
the first `d` or `D` that is immediately followed by at least one
digit. -/
def findDieDigits : List Char → Option (List Char)
  | [] => none
  | c :: rest =>
    if c = 'd' ∨ c = 'D' then
      let ds := rest.takeWhile Char.isDigit
      if ds ≠ [] then some ds else findDieDigits rest
    else findDieDigits rest

/-- `getWeaponDamageDie(item)`: the die of the first structured damage
entry (`d` plus its captured digits), default `d6` when the item is
absent, has no damage parts, an empty first formula, or no die match. -/
def getWeaponDamageDie (item : Option MidiItem) : String :=
  match item with
  | none => "d6"
  | some it =>
    match it.damageParts with
    | [] => "d6"
    | (f, _) :: _ =>
      if f = "" then "d6"
      else
        match findDieDigits f.toList with
        | some ds => "d" ++ String.mk ds
        | none => "d6"

/-- `getSpellDamageDie(item)`: same extraction with default `d8`. -/
def getSpellDamageDie (item : Option MidiItem) : String :=
  match item with
  | none => "d8"
  | some it =>
    match it.damageParts with
    | [] => "d8"
    | (f, _) :: _ =>
      if f = "" then "d8"
      else
        match findDieDigits f.toList with
        | some ds => "d" ++ String.mk ds
        | none => "d8"

/-- `getWeaponDamageType(item)`: the type of the first structured damage
entry, default `bludgeoning`. -/
def getWeaponDamageType (item : MidiItem) : String :=
  match item.damageParts with
  | [] => "bludgeoning"
  | (_, ty) :: _ => if ty = "" then "bludgeoning" else ty

/-- `resolveWeaponDiceFormula(formula, sourceItem)`: `NW` rewrites to the
count followed by the weapon die, `NS` to the count followed by the
spell die, anything else passes through unchanged. -/
def resolveWeaponDiceFormula (formula : String) (sourceItem : Option MidiItem) : String :=
  match matchDiceCount 'W' 'w' formula with
  | some numDice => toString numDice ++ getWeaponDamageDie sourceItem
  | none =>
    match matchDiceCount 'S' 's' formula with
    | some numDice => toString numDice ++ getSpellDamageDie sourceItem
    | none => formula

/-- The damage-type resolution inside `applyDamage`: start from the
configured type (default `bludgeoning`); the markers `weapon` and
`spell` read the source item's first damage-entry type, falling back to
`bludgeoning` respectively `force` when no item is available. -/
def resolveDamageType (config : TableEffectConfig) (sourceItem : Option MidiItem) : String :=
  let damageType := orDefault config.damageType "bludgeoning"
  match sourceItem with
  | some it =>
    if damageType = "weapon" ∨ damageType = "spell" then getWeaponDamageType it
    else damageType
  | none =>
    if damageType = "weapon" then "bludgeoning"
    else if damageType = "spell" then "force"
    else damageType

/-- `applyDamage(token, config, sourceItem)`: no-op without a truthy
formula or an actor; otherwise resolves the formula and damage type and
hands them to the host's damage application (the rolled total and the
chat echo of the roll are outside the model). -/
def applyDamage (token : Token) (config : TableEffectConfig)
    (sourceItem : Option MidiItem) : List HostCall :=
  match config.damageFormula, token.actor with
  | some formula, some _ =>
    if formula = "" then []
    else
      [.applyTokenDamage (resolveWeaponDiceFormula formula sourceItem)
        (resolveDamageType config sourceItem)]
  | _, _ => []

/-- JavaScript truthiness of the optional numeric `saveDC` field
(`undefined` and `0` are falsy). -/
def dcTruthy : Option ℚ → Bool
  | some dc => dc ≠ 0
  | none => false

/-- `handleSaveEffect(token, config, sourceActor, resultIcon)`: requires
a truthy DC, a truthy ability and an actor; then applies the nested
condition (when configured) and the nested damage (when configured).
The source item is not a parameter of this method, so the nested damage
call receives no item. -/
def handleSaveEffect (token : Token) (config : TableEffectConfig)
    (resultIcon : Option String) (combat : Option Combat) : List HostCall :=
  if dcTruthy config.saveDC ∧ strTruthy config.saveAbility ∧ token.actor.isSome then
    (if strTruthy config.effectCondition then applyCondition token config resultIcon combat else [])
      ++ (if strTruthy config.damageFormula then applyDamage token config .none else [])
  else []

/-- The duration block built inside `applyPenalty`: `-1` gives explicit
null seconds and rounds; every other value (including `0`) gives that
many rounds anchored to the current combat round and turn. -/
def penaltyDurationData (duration : ℤ) (combat : Option Combat) : DurationData :=
  if duration = -1 then
    { seconds := some .none, rounds := some .none }
  else
    { rounds := some (some duration), startRound := some (curRound combat),
      startTurn := some (curTurn combat) }

/-- `applyPenalty(token, config, resultIcon)`: requires an actor, a
truthy penalty kind and a defined penalty value; builds an additive
change on the AC bonus or the all-attack bonus, with default duration
`-1` (permanent). -/
def applyPenalty (token : Token) (config : TableEffectConfig)
    (resultIcon : Option String) (combat : Option Combat) : List HostCall :=
  match token.actor, config.penaltyType, config.penaltyValue with
  | some actor, some penaltyType, some penaltyValue =>
    if penaltyType = "" then []
    else
      let changeKey :=
        if penaltyType = "ac" then "system.attributes.ac.bonus"
        else "system.bonuses.All.attack"
      let effectName :=
        if penaltyType = "ac" then "Armor Damaged" else "Weapon Damaged"
      let duration := config.duration.getD (-1)
      [.createEffect {
        name := effectName,
        icon := orDefault resultIcon "icons/svg/downgrade.svg",
        origin := actor.uuid,
        changes := [{ key := changeKey, mode := .ADD, value := toString penaltyValue }],
        duration := penaltyDurationData duration combat }]
  | _, _, _ => []

/-- `scopeToMidiFlags(scope, type, target)`: expand one scope token into
host flag keys, under the grants or plain key root depending on the
configured target; unrecognised tokens expand to nothing. -/
def scopeToMidiFlags (scope ty target : String) : List String :=
  let pfx :=
    if target = "grants" then "flags.midi-qol.grants." ++ ty
    else "flags.midi-qol." ++ ty
  match scope with
  | "all" => [pfx ++ ".all"]
  | "attack.all" => [pfx ++ ".attack.all"]
  | "attack.mwak" => [pfx ++ ".attack.mwak"]
  | "attack.rwak" => [pfx ++ ".attack.rwak"]
  | "attack.msak" => [pfx ++ ".attack.msak"]
  | "attack.rsak" => [pfx ++ ".attack.rsak"]
  | "ability.all" => [pfx ++ ".ability.check.all"]
  | "ability.str" => [pfx ++ ".ability.check.str"]
  | "ability.dex" => [pfx ++ ".ability.check.dex"]
  | "ability.con" => [pfx ++ ".ability.check.con"]
  | "ability.int" => [pfx ++ ".ability.check.int"]
  | "ability.wis" => [pfx ++ ".ability.check.wis"]
  | "ability.cha" => [pfx ++ ".ability.check.cha"]
  | "save.all" => [pfx ++ ".ability.save.all"]
  | "save.str" => [pfx ++ ".ability.save.str"]
  | "save.dex" => [pfx ++ ".ability.save.dex"]
  | "save.con" => [pfx ++ ".ability.save.con"]
  | "save.int" => [pfx ++ ".ability.save.int"]
  | "save.wis" => [pfx ++ ".ability.save.wis"]
  | "save.cha" => [pfx ++ ".ability.save.cha"]
  | "concentration" => [pfx ++ ".concentration"]
  | _ => []

/-- `buildAdvantageChanges(scopes, type, target)`: one change per
expanded flag key, every change carrying value `"1"` in the host's
CUSTOM change mode. -/
def buildAdvantageChanges (scopes : List String) (ty target : String) : List Change :=
  scopes.flatMap (fun scope =>
    (scopeToMidiFlags scope ty target).map (fun key =>
      { key := key, mode := Mode.CUSTOM, value := "1" }))

/-- `scopeToLabel(scope)`: human-readable scope label, the token itself
when unknown. -/
def scopeToLabel (scope : String) : String :=
  match scope with
  | "all" => "All Rolls"
  | "attack.all" => "All Attacks"
  | "attack.mwak" => "Melee Attacks"
  | "attack.rwak" => "Ranged Attacks"
  | "attack.msak" => "Melee Spell Attacks"
  | "attack.rsak" => "Ranged Spell Attacks"
  | "ability.all" => "All Ability Checks"
  | "ability.str" => "STR Checks"
  | "ability.dex" => "DEX Checks"
  | "ability.con" => "CON Checks"
  | "ability.int" => "INT Checks"
  | "ability.wis" => "WIS Checks"
  | "ability.cha" => "CHA Checks"
  | "save.all" => "All Saves"
  | "save.str" => "STR Saves"
  | "save.dex" => "DEX Saves"
  | "save.con" => "CON Saves"
  | "save.int" => "INT Saves"
  | "save.wis" => "WIS Saves"
  | "save.cha" => "CHA Saves"
  | "concentration" => "Concentration"
  | s => s

/-- `generateAdvantageEffectName(type, scopes, target)`. -/
def generateAdvantageEffectName (ty : String) (scopes : List String)
    (target : String) : String :=
  let typeLabel := if ty = "advantage" then "Advantage" else "Disadvantage"
  let targetLabel := if target = "grants" then "Grants " else ""
  match scopes with
  | [s] => targetLabel ++ typeLabel ++ " (" ++ scopeToLabel s ++ ")"
  | _ => targetLabel ++ typeLabel ++ " (Multiple)"

/-- `getAdvantageIcon(type)`. -/
def getAdvantageIcon (ty : String) : String :=
  if ty = "advantage" then "icons/svg/upgrade.svg" else "icons/svg/downgrade.svg"

/-- The scope list the source builds with its `Array.isArray`
normalisation. -/
def scopeFieldList : ScopeField → List String
  | .one s => [s]
  | .many l => l

/-- JavaScript truthiness of the `advantageScope` field: a single empty
string token is falsy, an array (even empty) is truthy. -/
def scopeFieldTruthy : ScopeField → Bool
  | .one s => s ≠ ""
  | .many _ => true

/-- The duration block built inside `applyAdvantageDisadvantage`; the
sentinel interpretation is the same as for conditions. -/
def advDurationData (duration : ℤ) (combat : Option Combat) : DurationData :=
  if duration = -1 then
    { seconds := some .none, rounds := some .none }
  else if duration = 0 then
    { turns := some 1, startTurn := some (curTurn combat), startRound := some (curRound combat) }
  else
    { rounds := some (some duration), startRound := some (curRound combat),
      startTurn := some (curTurn combat) }

/-- `applyAdvantageDisadvantage(token, config, type, resultIcon)`:
requires an actor and a truthy scope; expands the scopes into changes
(warn no-op when nothing expands), then creates one effect document
whose name defaults to the generated label, whose target defaults to
`self`, and whose duration defaults to 1 round. -/
def applyAdvantageDisadvantage (token : Token) (config : TableEffectConfig)
    (ty : String) (resultIcon : Option String) (combat : Option Combat) : List HostCall :=
  match token.actor, config.advantageScope with
  | some actor, some scopeField =>
    if scopeFieldTruthy scopeField = false then []
    else
      let scopes := scopeFieldList scopeField
      let target := config.advantageTarget.getD "self"
      let changes := buildAdvantageChanges scopes ty target
      if changes = [] then []
      else
        let effectName := config.effectName.getD (generateAdvantageEffectName ty scopes target)
        let duration := config.duration.getD 1
        [.createEffect {
          name := effectName,
          icon := orDefault resultIcon (getAdvantageIcon ty),
          origin := actor.uuid,
          changes := changes,
          duration := advDurationData duration combat }]
  | _, _ => []

/-- One dispatch of the effects manager: which handler `applyResult`
invokes, with which arguments. -/
inductive Call where
  | condition (token : Token) (config : TableEffectConfig) (icon : Option String)
  | damage (token : Token) (config : TableEffectConfig) (item : Option MidiItem)
  | save (token : Token) (config : TableEffectConfig) (actor : Option Actor) (icon : Option String)
  | disarm (actor : Option Actor) (item : Option MidiItem)
  | penalty (token : Token) (config : TableEffectConfig) (icon : Option String)
  | advDis (token : Token) (config : TableEffectConfig) (ty : String) (icon : Option String)
deriving DecidableEq, Repr

/-- The token a dispatched call applies its effect to (`none` for the
disarm handler, which acts on the source actor instead). -/
def Call.targetToken : Call → Option Token
  | .condition t _ _ => some t
  | .damage t _ _ => some t
  | .save t _ _ _ => some t
  | .disarm _ _ => .none
  | .penalty t _ _ => some t
  | .advDis t _ _ _ => some t

/-- `applyResult(result, targetToken, sourceActor, sourceItem)`: no-op
when effects are disabled or the entry carries no configuration or the
kind is `none`; otherwise a single dispatch on the effect kind against
the given token. -/
def applyResult (s : Settings) (result : RolledResult) (targetToken : Token)
    (sourceActor : Option Actor) (sourceItem : Option MidiItem) : List Call :=
  if s.applyEffects = false then []
  else
    match result.flags with
    | .none => []
    | some effectConfig =>
      let resultIcon := result.img
      match effectConfig.effectType with
      | .none => []
      | .condition => [.condition targetToken effectConfig resultIcon]
      | .damage => [.damage targetToken effectConfig sourceItem]
      | .save => [.save targetToken effectConfig sourceActor resultIcon]
      | .disarm => [.disarm sourceActor sourceItem]
      | .penalty => [.penalty targetToken effectConfig resultIcon]
      | .advantage => [.advDis targetToken effectConfig "advantage" resultIcon]
      | .disadvantage => [.advDis targetToken effectConfig "disadvantage" resultIcon]

/-- `applyFumbleResult(result, fumblerToken, targetTokens, sourceActor,
sourceItem)`: a grants-targeted advantage or disadvantage entry with at
least one original target re-targets the effect onto every original
target, with the grants marker cleared; every other case delegates to
`applyResult` against the fumbler. -/
def applyFumbleResult (s : Settings) (result : RolledResult) (fumblerToken : Token)
    (targetTokens : List Token) (sourceActor : Option Actor)
    (sourceItem : Option MidiItem) : List Call :=
  if s.applyEffects = false then []
  else
    match result.flags with
    | .none => []
    | some effectConfig =>
      if effectConfig.effectType = .none then []
      else if (effectConfig.effectType = .advantage ∨ effectConfig.effectType = .disadvantage)
          ∧ effectConfig.advantageTarget = some "grants"
          ∧ targetTokens ≠ [] then
        let targetConfig := { effectConfig with advantageTarget := .none }
        let mode := if effectConfig.effectType = .advantage then "advantage" else "disadvantage"
        targetTokens.map (fun target => .advDis target targetConfig mode result.img)
      else
        applyResult s result fumblerToken sourceActor sourceItem

end EffectsManager

/-! ## Claim theorems -/

/-- C2: for every integer level, `getTierFromLevel` returns 1 on
levels at most 4, 2 on 5..8, 3 on 9..12 and 4 from 13 on; it is
monotonic non-decreasing and saturates at 4 from 13 on over all numeric
inputs; and `getTierFromCR` agrees with `getTierFromLevel` on every
numeric input. -/
theorem getTier_breakpoints_spec :
    (∀ L : ℤ, ((L : ℚ) ≤ 4 → getTierFromLevel (L : ℚ) = 1)
      ∧ (5 ≤ L → L ≤ 8 → getTierFromLevel (L : ℚ) = 2)
      ∧ (9 ≤ L → L ≤ 12 → getTierFromLevel (L : ℚ) = 3)
      ∧ (13 ≤ L → getTierFromLevel (L : ℚ) = 4))
    ∧ (∀ x y : ℚ, x ≤ y → getTierFromLevel x ≤ getTierFromLevel y)
    ∧ (∀ x : ℚ, 13 ≤ x → getTierFromLevel x = 4)
    ∧ (∀ x : ℚ, getTierFromCR x = getTierFromLevel x) := by
  refine ⟨fun L => ⟨?_, ?_, ?_, ?_⟩, ?_, ?_, ?_⟩
  · intro h
    simp only [getTierFromLevel, if_pos h]
  · intro h5 h8
    have h5q : (5 : ℚ) ≤ (L : ℚ) := by exact_mod_cast h5
    have h8q : (L : ℚ) ≤ 8 := by exact_mod_cast h8
    simp only [getTierFromLevel]
    rw [if_neg (by linarith), if_pos h8q]
  · intro h9 h12
    have h9q : (9 : ℚ) ≤ (L : ℚ) := by exact_mod_cast h9
    have h12q : (L : ℚ) ≤ 12 := by exact_mod_cast h12
    simp only [getTierFromLevel]
    rw [if_neg (by linarith), if_neg (by linarith), if_pos h12q]
  · intro h13
    have h13q : (13 : ℚ) ≤ (L : ℚ) := by exact_mod_cast h13
    simp only [getTierFromLevel]
    rw [if_neg (by linarith), if_neg (by linarith), if_neg (by linarith)]
  · intro x y hxy
    simp only [getTierFromLevel]
    split_ifs <;> first | rfl | omega | linarith
  · intro x h13
    simp only [getTierFromLevel]
    rw [if_neg (by linarith), if_neg (by linarith), if_neg (by linarith)]
  · intro x
    simp only [getTierFromCR, getTierFromLevel]

/-- Witness for C2 at concrete inputs. -/
theorem getTier_breakpoints_spec_witness :
    getTierFromLevel ((3 : ℤ) : ℚ) = 1 ∧ getTierFromLevel ((7 : ℤ) : ℚ) = 2
      ∧ getTierFromCR 20 = getTierFromLevel 20 :=
  ⟨(getTier_breakpoints_spec.1 3).1 (by norm_num),
   (getTier_breakpoints_spec.1 7).2.1 (by norm_num) (by norm_num),
   getTier_breakpoints_spec.2.2.2 20⟩

/-- C3: with the use-level flag off, `TableSelector.getTier` is the
configured fixed tier regardless of the arguments; with it on, a
defined level strictly above 0 selects the level breakpoints
(whatever the CR is), a level of exactly 0 or an absent level falls
through to a defined CR at least 0 via the CR breakpoints, and with
neither a positive level nor a non-negative CR the fixed tier is
returned. -/
theorem getTier_policy_spec :
    ∀ (s : Settings) (lvl cr : Option ℚ),
      (s.useActorLevel = false → TableSelector.getTier s lvl cr = s.fixedTier)
      ∧ (∀ l, s.useActorLevel = true → lvl = some l → 0 < l →
          TableSelector.getTier s lvl cr = getTierFromLevel l)
      ∧ (∀ c, s.useActorLevel = true → (lvl = .none ∨ lvl = some 0) →
          cr = some c → 0 ≤ c →
          TableSelector.getTier s lvl cr = getTierFromCR c)
      ∧ (s.useActorLevel = true → (∀ l, lvl = some l → ¬ 0 < l) →
          (∀ c, cr = some c → ¬ 0 ≤ c) →
          TableSelector.getTier s lvl cr = s.fixedTier) := by
  intro s lvl cr
  refine ⟨?_, ?_, ?_, ?_⟩
  · intro hoff
    simp [TableSelector.getTier, hoff]
  · intro l hon hl hpos
    subst hl
    simp [TableSelector.getTier, hon, hpos]
  · intro c hon hlvl hcr hc
    subst hcr
    rcases hlvl with h | h <;> subst h <;>
      simp [TableSelector.getTier, TableSelector.getTierCRBranch, hon, hc]
  · intro hon hl hc
    simp only [TableSelector.getTier, hon, if_true]
    have hbranch : TableSelector.getTierCRBranch s cr = s.fixedTier := by
      cases cr with
      | none => rfl
      | some c =>
        simp [TableSelector.getTierCRBranch, hc c rfl]
    cases lvl with
    | none => exact hbranch
    | some l =>
      simp only [hbranch, if_neg (hl l rfl)]

/-- Witness for C3 at concrete inputs: level 0 with CR 8 falls through
to the CR breakpoints; use-level off returns the fixed tier. -/
theorem getTier_policy_spec_witness :
    TableSelector.getTier ⟨true, true, 3⟩ (some 0) (some 8) = getTierFromCR 8
      ∧ TableSelector.getTier ⟨true, false, 3⟩ (some 20) (some 20) = 3 :=
  ⟨(getTier_policy_spec ⟨true, true, 3⟩ (some 0) (some 8)).2.2.1 8 rfl
      (Or.inr rfl) rfl (by norm_num),
   (getTier_policy_spec ⟨true, false, 3⟩ (some 20) (some 20)).1 rfl⟩

open EffectsManager in
/-- Zeta-free unfolding of the anchored dice matcher. -/
theorem matchDiceCount_eq (cUp cLo : Char) (s : String) :
    matchDiceCount cUp cLo s =
      match s.toList.getLast? with
      | some c =>
        if (c = cUp ∨ c = cLo) ∧ s.toList.dropLast ≠ []
            ∧ s.toList.dropLast.all Char.isDigit
        then some (digitsVal s.toList.dropLast)
        else none
      | none => none := rfl

open EffectsManager in
/-- The matcher accepts exactly a digit run followed by the letter. -/
theorem matchDiceCount_some_of (cUp cLo : Char) (ds : List Char) (c : Char)
    (hne : ds ≠ []) (hdig : ds.all Char.isDigit = true) (hc : c = cUp ∨ c = cLo) :
    matchDiceCount cUp cLo (String.mk (ds ++ [c])) = some (digitsVal ds) := by
  have htl : (String.mk (ds ++ [c])).toList = ds ++ [c] := rfl
  rw [matchDiceCount_eq, htl]
  simp only [List.getLast?_append, List.getLast?_singleton, List.dropLast_concat]
  simp [hne, hdig, hc]

open EffectsManager in
/-- The matcher rejects every string that is not a digit run followed by
the letter. -/
theorem matchDiceCount_none_of (cUp cLo : Char) (s : String)
    (h : ¬ ∃ ds c, ds ≠ [] ∧ ds.all Char.isDigit = true ∧ (c = cUp ∨ c = cLo)
        ∧ s = String.mk (ds ++ [c])) :
    matchDiceCount cUp cLo s = none := by
  rw [matchDiceCount_eq]
  rcases hlast : s.toList.getLast? with _ | c
  · rfl
  · simp only []
    split_ifs with hcond
    · exfalso
      obtain ⟨hc, hdrop, hdig⟩ := hcond
      refine h ⟨s.toList.dropLast, c, hdrop, by simpa using hdig, hc, ?_⟩
      have hrec := List.dropLast_append_getLast? c hlast
      calc s = String.mk s.toList := rfl
      _ = String.mk (s.toList.dropLast ++ [c]) := by rw [hrec]
    · rfl

/-- Two concatenations with a final singleton agree on the final
element. -/
theorem concat_last_eq (ds ds' : List Char) (c c' : Char)
    (h : ds ++ [c] = ds' ++ [c']) : c = c' := by
  have := congrArg List.getLast? h
  simpa using this

open EffectsManager in
/-- A digits-then-W formula rewrites to the count followed by the weapon
die. -/
theorem resolveWeaponDiceFormula_concatW (ds : List Char) (c : Char)
    (item : Option MidiItem) (hne : ds ≠ []) (hdig : ds.all Char.isDigit = true)
    (hc : c = 'W' ∨ c = 'w') :
    resolveWeaponDiceFormula (String.mk (ds ++ [c])) item =
      toString (digitsVal ds) ++ getWeaponDamageDie item := by
  simp [resolveWeaponDiceFormula,
    matchDiceCount_some_of 'W' 'w' ds c hne hdig hc]

open EffectsManager in
/-- A digits-then-S formula rewrites to the count followed by the spell
die. -/
theorem resolveWeaponDiceFormula_concatS (ds : List Char) (c : Char)
    (item : Option MidiItem) (hne : ds ≠ []) (hdig : ds.all Char.isDigit = true)
    (hc : c = 'S' ∨ c = 's') :
    resolveWeaponDiceFormula (String.mk (ds ++ [c])) item =
      toString (digitsVal ds) ++ getSpellDamageDie item := by
  have hW : matchDiceCount 'W' 'w' (String.mk (ds ++ [c])) = none := by
    apply matchDiceCount_none_of
    rintro ⟨ds', c', _, _, hc', heq'⟩
    have hlists : ds' ++ [c'] = ds ++ [c] := by
      have : (String.mk (ds ++ [c])).data = (String.mk (ds' ++ [c'])).data := by
        rw [← heq']
      simpa using this.symm
    have hcc : c' = c := concat_last_eq ds' ds c' c hlists
    rcases hc with h | h <;> rcases hc' with h' | h' <;> simp_all
  simp [resolveWeaponDiceFormula, hW,
    matchDiceCount_some_of 'S' 's' ds c hne hdig hc]

/-- C6: `resolveWeaponDiceFormula` rewrites a digits-then-W formula to
the count followed by the weapon die of the item (default `d6`),
rewrites a digits-then-S formula to the count followed by the spell die
of the item (default `d8`), and returns every other formula
unchanged. -/
theorem resolveWeaponDiceFormula_spec :
    ∀ (formula : String) (item : Option MidiItem),
      (∀ ds c, ds ≠ [] → ds.all Char.isDigit = true → (c = 'W' ∨ c = 'w') →
        formula = String.mk (ds ++ [c]) →
        EffectsManager.resolveWeaponDiceFormula formula item =
          toString (EffectsManager.digitsVal ds) ++ EffectsManager.getWeaponDamageDie item)
      ∧ (∀ ds c, ds ≠ [] → ds.all Char.isDigit = true → (c = 'S' ∨ c = 's') →
        formula = String.mk (ds ++ [c]) →
        EffectsManager.resolveWeaponDiceFormula formula item =
          toString (EffectsManager.digitsVal ds) ++ EffectsManager.getSpellDamageDie item)
      ∧ ((¬ ∃ ds c, ds ≠ [] ∧ ds.all Char.isDigit = true
          ∧ (c = 'W' ∨ c = 'w' ∨ c = 'S' ∨ c = 's')
          ∧ formula = String.mk (ds ++ [c])) →
        EffectsManager.resolveWeaponDiceFormula formula item = formula)
      ∧ EffectsManager.getWeaponDamageDie .none = "d6"
      ∧ EffectsManager.getSpellDamageDie .none = "d8" := by
  intro formula item
  refine ⟨?_, ?_, ?_, rfl, rfl⟩
  · intro ds c hne hdig hc hform
    subst hform
    exact resolveWeaponDiceFormula_concatW ds c item hne hdig hc
  · intro ds c hne hdig hc hform
    subst hform
    exact resolveWeaponDiceFormula_concatS ds c item hne hdig hc
  · intro hno
    have hW : EffectsManager.matchDiceCount 'W' 'w' formula = none := by
      apply matchDiceCount_none_of
      rintro ⟨ds, c, hne, hdig, hc, heq⟩
      exact hno ⟨ds, c, hne, hdig, by tauto, heq⟩
    have hS : EffectsManager.matchDiceCount 'S' 's' formula = none := by
      apply matchDiceCount_none_of
      rintro ⟨ds, c, hne, hdig, hc, heq⟩
      exact hno ⟨ds, c, hne, hdig, by tauto, heq⟩
    simp [EffectsManager.resolveWeaponDiceFormula, hW, hS]

/-- Witness for C6 on the worked examples of the specification. -/
theorem resolveWeaponDiceFormula_spec_witness :
    EffectsManager.resolveWeaponDiceFormula "2W"
        (some ⟨"weapon", .none, .none, [("1d8", "slashing")]⟩) = "2d8"
      ∧ EffectsManager.resolveWeaponDiceFormula "3w"
        (some ⟨"weapon", .none, .none, [("1d12", "slashing")]⟩) = "3d12"
      ∧ EffectsManager.resolveWeaponDiceFormula "2W" .none = "2d6"
      ∧ EffectsManager.resolveWeaponDiceFormula "2S" .none = "2d8"
      ∧ EffectsManager.resolveWeaponDiceFormula "2d6"
        (some ⟨"weapon", .none, .none, [("1d8", "slashing")]⟩) = "2d6" := by
  refine ⟨?_, ?_, ?_, ?_, ?_⟩
  · have h := (resolveWeaponDiceFormula_spec "2W"
      (some ⟨"weapon", .none, .none, [("1d8", "slashing")]⟩)).1 ['2'] 'W'
      (by decide) (by decide) (Or.inl rfl) rfl
    rw [h]; rfl
  · have h := (resolveWeaponDiceFormula_spec "3w"
      (some ⟨"weapon", .none, .none, [("1d12", "slashing")]⟩)).1 ['3'] 'w'
      (by decide) (by decide) (Or.inr rfl) rfl
    rw [h]; rfl
  · have h := (resolveWeaponDiceFormula_spec "2W" .none).1 ['2'] 'W'
      (by decide) (by decide) (Or.inl rfl) rfl
    rw [h]; rfl
  · have h := (resolveWeaponDiceFormula_spec "2S" .none).2.1 ['2'] 'S'
      (by decide) (by decide) (Or.inl rfl) rfl
    rw [h]; rfl
  · have h := (resolveWeaponDiceFormula_spec "2d6"
      (some ⟨"weapon", .none, .none, [("1d8", "slashing")]⟩)).2.2.1 ?_
    · exact h
    · rintro ⟨ds, c, hne, hdig, hc, heq⟩
      have hlists : ds ++ [c] = ['2', 'd', '6'] := by
        have : ("2d6" : String).data = (String.mk (ds ++ [c])).data := by rw [← heq]
        simpa using this.symm
      have : c = '6' := concat_last_eq ds ['2', 'd'] c '6' hlists
      subst this
      rcases hc with h | h | h | h <;> simp_all

/-- `idxOfSep` returns the index of the first occurrence of the
separator: the separator starts there and at no earlier position. -/
theorem idxOfSep_first (cs : List Char) :
    ∀ i, TableSelector.idxOfSep cs = some i →
      [' ', '-', ' '].isPrefixOf (cs.drop i) = true
      ∧ ∀ j < i, [' ', '-', ' '].isPrefixOf (cs.drop j) = false := by
  induction cs with
  | nil => intro i h; simp [TableSelector.idxOfSep] at h
  | cons c rest ih =>
    intro i h
    unfold TableSelector.idxOfSep at h
    split_ifs at h with hpre
    · cases h
      exact ⟨by simpa using hpre, by omega⟩
    · rcases hrec : TableSelector.idxOfSep rest with _ | i'
      · rw [hrec] at h; cases h
      · rw [hrec] at h
        have hi : i = i' + 1 := by simpa using h.symm
        subst hi
        obtain ⟨h1, h2⟩ := ih i' hrec
        refine ⟨by simpa using h1, ?_⟩
        intro j hj
        cases j with
        | zero =>
          simp only [List.drop_zero]
          exact Bool.eq_false_iff.mpr hpre
        | succ j' => exact h2 j' (by omega)

/-- Match-form unfolding of `parseResultText`. -/
theorem parseResultText_eq (text : String) :
    TableSelector.parseResultText text =
      match TableSelector.idxOfSep text.toList with
      | some i =>
        if 0 < i then
          (String.mk (text.toList.take i), String.mk (text.toList.drop (i + 3)))
        else (if text = "" then "Unknown Result" else text, "")
      | none => (if text = "" then "Unknown Result" else text, "") := by
  simp only [TableSelector.parseResultText]
  rcases h : TableSelector.idxOfSep text.toList with _ | i
  · norm_num
  · by_cases hi : 0 < i
    · simp [hi]
    · simp [hi, show ¬ ((0 : ℤ) < (i : ℤ)) from by exact_mod_cast hi]

/-- Counterexample to C8: on an entry text that starts with the
separator (`" - Hello"`), the separator is present (first occurrence at
index 0), yet the split is not performed: the whole text becomes the
name and the description is empty, not name `""` / description
`"Hello"` as the claim requires for every text containing the
separator. -/
theorem parseResultText_cex :
    TableSelector.idxOfSep (" - Hello" : String).toList = some 0
      ∧ TableSelector.parseResultText " - Hello" = (" - Hello", "")
      ∧ TableSelector.parseResultText " - Hello" ≠ ("", "Hello") := by
  refine ⟨by decide, ?_, ?_⟩
  · rw [parseResultText_eq]; decide
  · rw [parseResultText_eq]; decide

/-- C8 amended: `rollOnTable` splits the drawn entry text at the first
occurrence of the separator only when that occurrence is at a strictly
positive index; when the separator is absent or its first occurrence is
at index 0 the whole text becomes the name (with `"Unknown Result"`
substituted for an empty text) and the description is empty. -/
theorem parseResultText_spec :
    ∀ text : String,
      (∀ i, TableSelector.idxOfSep text.toList = some i →
        [' ', '-', ' '].isPrefixOf (text.toList.drop i) = true
        ∧ ∀ j < i, [' ', '-', ' '].isPrefixOf (text.toList.drop j) = false)
      ∧ (∀ i, TableSelector.idxOfSep text.toList = some i → 0 < i →
        TableSelector.parseResultText text =
          (String.mk (text.toList.take i), String.mk (text.toList.drop (i + 3))))
      ∧ (TableSelector.idxOfSep text.toList = some 0 →
        TableSelector.parseResultText text = (text, ""))
      ∧ (TableSelector.idxOfSep text.toList = .none →
        TableSelector.parseResultText text =
          ((if text = "" then "Unknown Result" else text), "")) := by
  intro text
  refine ⟨idxOfSep_first text.toList, ?_, ?_, ?_⟩
  · intro i h hi
    rw [parseResultText_eq, h]
    simp [hi]
  · intro h
    have hne : text ≠ "" := by
      intro he
      subst he
      simp [TableSelector.idxOfSep] at h
    rw [parseResultText_eq, h]
    simp [hne]
  · intro h
    rw [parseResultText_eq, h]

/-- Witness for the amended C8: a regular `"Name - Description"` text is
split at the separator; a separator-free text keeps the whole text as
the name. -/
theorem parseResultText_spec_witness :
    TableSelector.parseResultText "Pin Down - Target is pinned"
        = ("Pin Down", "Target is pinned")
      ∧ TableSelector.parseResultText "Nothing" = ("Nothing", "") := by
  constructor
  · have h := (parseResultText_spec "Pin Down - Target is pinned").2.1 8
      (by decide) (by decide)
    rw [h]; decide
  · have h := (parseResultText_spec "Nothing").2.2.2 (by decide)
    rw [h]; decide

/-- Counterexample to C7: an item with no structured attack activities
but carrying the legacy action-type code `rwak` (an `r`-prefixed code
ending in `wak`, which the claim classifies as ranged) is classified as
melee: the classifier never consults the legacy code and falls straight
through to the item-type default. -/
theorem getAttackType_cex :
    TableSelector.getAttackType
        { type := "weapon", activities := .none,
          legacyActionType := some "rwak", damageParts := [] } = "melee"
      ∧ TableSelector.getAttackType
        { type := "weapon", activities := .none,
          legacyActionType := some "rwak", damageParts := [] } ≠ "ranged" := by
  constructor
  · rfl
  · decide

/-- C7 amended: for every item with no structured attack activity the
classifier ignores any legacy single action-type code entirely and
classifies by the item type alone: spell-type items classify as spell
and every other item (weapon-type in particular) as melee; the
classification is invariant under changing the legacy code. -/
theorem getAttackType_fallback_spec :
    ∀ item : MidiItem,
      (∀ a ∈ item.activities.getD [], a.attackType = .none) →
      (TableSelector.getAttackType item =
        if item.type = "spell" then "spell" else "melee")
      ∧ (∀ legacy, TableSelector.getAttackType
          { item with legacyActionType := legacy } =
          TableSelector.getAttackType item) := by
  intro item hnoatk
  have hfind : (item.activities.getD []).find? (fun a => a.attackType.isSome) = .none := by
    rw [List.find?_eq_none]
    intro a ha
    simp [hnoatk a ha]
  have hact : getActionType item =
      (if item.type = "spell" then some "rsak"
       else if item.type = "weapon" then some "mwak"
       else .none) := by
    simp only [getActionType, hfind]
  constructor
  · by_cases hsp : item.type = "spell"
    · simp [TableSelector.getAttackType, isSpellAttack, isRangedAttack, hact, hsp]
    · by_cases hwp : item.type = "weapon" <;>
        simp [TableSelector.getAttackType, isSpellAttack, isRangedAttack, hact, hsp, hwp]
  · intro legacy
    cases item
    rfl

/-- Witness for the amended C7: a spell item and a weapon item, both
without activities and both carrying a legacy code, classify as spell
respectively melee. -/
theorem getAttackType_fallback_spec_witness :
    TableSelector.getAttackType
        { type := "spell", activities := some [], legacyActionType := some "msak",
          damageParts := [] } = "spell"
      ∧ TableSelector.getAttackType
        { type := "weapon", activities := .none, legacyActionType := some "mwak",
          damageParts := [] } = "melee" := by
  constructor
  · have h := (getAttackType_fallback_spec
      { type := "spell", activities := some [], legacyActionType := some "msak",
        damageParts := [] } (by decide)).1
    rw [h]; rfl
  · have h := (getAttackType_fallback_spec
      { type := "weapon", activities := .none, legacyActionType := some "mwak",
        damageParts := [] } (by decide)).1
    rw [h]; rfl

open EffectsManager in
/-- C1: with effects enabled, an advantage or disadvantage entry whose
configured target is grants is re-applied, once per original target
token, with the grants marker cleared, and nothing is applied to the
fumbler; in every other combination `applyFumbleResult` coincides with
`applyResult` against the fumbler token. -/
theorem applyFumbleResult_spec :
    ∀ (s : Settings) (result : RolledResult) (fumblerToken : Token)
      (targetTokens : List Token) (sourceActor : Option Actor)
      (sourceItem : Option MidiItem),
      (∀ cfg, s.applyEffects = true → result.flags = some cfg →
        (cfg.effectType = .advantage ∨ cfg.effectType = .disadvantage) →
        cfg.advantageTarget = some "grants" → targetTokens ≠ [] →
        applyFumbleResult s result fumblerToken targetTokens sourceActor sourceItem =
          targetTokens.map (fun target =>
            Call.advDis target { cfg with advantageTarget := .none }
              (if cfg.effectType = .advantage then "advantage" else "disadvantage")
              result.img)
        ∧ (fumblerToken ∉ targetTokens →
            ∀ c ∈ applyFumbleResult s result fumblerToken targetTokens
                sourceActor sourceItem,
              c.targetToken ≠ some fumblerToken))
      ∧ (∀ cfg, result.flags = some cfg →
        ¬ ((cfg.effectType = .advantage ∨ cfg.effectType = .disadvantage)
            ∧ cfg.advantageTarget = some "grants" ∧ targetTokens ≠ []) →
        applyFumbleResult s result fumblerToken targetTokens sourceActor sourceItem =
          applyResult s result fumblerToken sourceActor sourceItem) := by
  intro s result fumblerToken targetTokens sourceActor sourceItem
  constructor
  · intro cfg hap hf hadv hg hne
    have hnn : cfg.effectType ≠ .none := by
      rcases hadv with h | h <;> simp [h]
    have heq : applyFumbleResult s result fumblerToken targetTokens
        sourceActor sourceItem =
        targetTokens.map (fun target =>
          Call.advDis target { cfg with advantageTarget := .none }
            (if cfg.effectType = .advantage then "advantage" else "disadvantage")
            result.img) := by
      simp [applyFumbleResult, hap, hf, hnn, hadv, hg, hne]
    refine ⟨heq, ?_⟩
    intro hnotin c hc
    rw [heq] at hc
    obtain ⟨target, htmem, hceq⟩ := List.mem_map.mp hc
    subst hceq
    simp only [Call.targetToken, ne_eq, Option.some.injEq]
    intro hteq
    exact hnotin (hteq ▸ htmem)
  · intro cfg hf hnot
    by_cases hap : s.applyEffects = true
    · by_cases hnn : cfg.effectType = .none
      · simp [applyFumbleResult, applyResult, hap, hf, hnn]
      · simp only [applyFumbleResult, hap, hf]
        rw [if_neg (by simp), if_neg hnn, if_neg hnot]
    · have hap' : s.applyEffects = false := by
        cases h : s.applyEffects
        · rfl
        · exact absurd h hap
      simp [applyFumbleResult, applyResult, hap']

open EffectsManager in
/-- Witness for C1: a grants-advantage fumble entry with one target is
applied to the target with the marker cleared, and the same entry with
zero targets delegates to `applyResult` against the fumbler. -/
theorem applyFumbleResult_spec_witness :
    applyFumbleResult ⟨true, true, 1⟩
        ⟨some { effectType := .advantage, advantageScope := some (.one "attack.all"),
                advantageTarget := some "grants", duration := some 1 }, .none⟩
        ⟨"Fumbler", some ⟨"uuidF", []⟩⟩ [⟨"Target", some ⟨"uuidT", []⟩⟩] .none .none =
      [Call.advDis ⟨"Target", some ⟨"uuidT", []⟩⟩
        { effectType := .advantage, advantageScope := some (.one "attack.all"),
          advantageTarget := .none, duration := some 1 } "advantage" .none]
    ∧ applyFumbleResult ⟨true, true, 1⟩
        ⟨some { effectType := .advantage, advantageScope := some (.one "attack.all"),
                advantageTarget := some "grants", duration := some 1 }, .none⟩
        ⟨"Fumbler", some ⟨"uuidF", []⟩⟩ [] .none .none =
      applyResult ⟨true, true, 1⟩
        ⟨some { effectType := .advantage, advantageScope := some (.one "attack.all"),
                advantageTarget := some "grants", duration := some 1 }, .none⟩
        ⟨"Fumbler", some ⟨"uuidF", []⟩⟩ .none .none := by
  constructor
  · have h := ((applyFumbleResult_spec ⟨true, true, 1⟩
      ⟨some { effectType := .advantage, advantageScope := some (.one "attack.all"),
              advantageTarget := some "grants", duration := some 1 }, .none⟩
      ⟨"Fumbler", some ⟨"uuidF", []⟩⟩ [⟨"Target", some ⟨"uuidT", []⟩⟩] .none .none).1
      _ rfl rfl (Or.inl rfl) rfl (by simp)).1
    rw [h]
    rfl
  · exact (applyFumbleResult_spec ⟨true, true, 1⟩
      ⟨some { effectType := .advantage, advantageScope := some (.one "attack.all"),
              advantageTarget := some "grants", duration := some 1 }, .none⟩
      ⟨"Fumbler", some ⟨"uuidF", []⟩⟩ [] .none .none).2 _ rfl (by simp)

open EffectsManager in
/-- C9: applying a condition whose name is in the fixed standard list
(case-insensitively) invokes only the status toggle, and only when the
status is not already active on the actor; a non-standard name invokes
only effect-document creation and never the toggle. -/
theorem applyCondition_dispatch_spec :
    ∀ (token : Token) (cfg : TableEffectConfig) (icon : Option String)
      (combat : Option Combat) (condName : String) (actor : Actor),
      cfg.effectCondition = some condName → condName ≠ "" →
      token.actor = some actor →
      (isStandardCondition condName = true →
        applyCondition token cfg icon combat =
          (if actor.statuses.contains (lowerString condName) then []
           else [HostCall.toggleStatus (lowerString condName)])
        ∧ ∀ c ∈ applyCondition token cfg icon combat,
            ∀ doc, c ≠ HostCall.createEffect doc)
      ∧ (isStandardCondition condName = false →
        (∃ doc, applyCondition token cfg icon combat = [HostCall.createEffect doc])
        ∧ ∀ c ∈ applyCondition token cfg icon combat,
            ∀ statusId, c ≠ HostCall.toggleStatus statusId) := by
  intro token cfg icon combat condName actor hcond hne hactor
  constructor
  · intro hstd
    have heq : applyCondition token cfg icon combat =
        (if actor.statuses.contains (lowerString condName) then []
         else [HostCall.toggleStatus (lowerString condName)]) := by
      simp [applyCondition, hcond, hactor, hne, hstd, applyStandardCondition]
    refine ⟨heq, ?_⟩
    intro c hc doc
    rw [heq] at hc
    split_ifs at hc with hhas
    · simp at hc
    · simp at hc
      subst hc
      simp
  · intro hstd
    have heq : applyCondition token cfg icon combat =
        [HostCall.createEffect {
          name := formatConditionName condName,
          icon := orDefault icon (getConditionIcon condName),
          origin := actor.uuid,
          duration := conditionDurationData (cfg.duration.getD 1) combat }] := by
      simp [applyCondition, hcond, hactor, hne, hstd]
    refine ⟨⟨_, heq⟩, ?_⟩
    intro c hc statusId
    rw [heq] at hc
    simp at hc
    subst hc
    simp

open EffectsManager in
/-- Witness for C9: the standard name `Prone` toggles (when not already
active) and creates no document; the non-standard name `spell_locked`
creates a document and toggles nothing. -/
theorem applyCondition_dispatch_spec_witness :
    applyCondition ⟨"T", some ⟨"u", []⟩⟩
        { effectType := .condition, effectCondition := some "Prone" } .none .none =
      [HostCall.toggleStatus "prone"]
    ∧ (∃ doc, applyCondition ⟨"T", some ⟨"u", []⟩⟩
        { effectType := .condition, effectCondition := some "spell_locked" }
        .none .none = [HostCall.createEffect doc]) := by
  constructor
  · have h := ((applyCondition_dispatch_spec ⟨"T", some ⟨"u", []⟩⟩
      { effectType := .condition, effectCondition := some "Prone" } .none .none
      "Prone" ⟨"u", []⟩ rfl (by decide) rfl).1 (by decide)).1
    rw [h]
    rfl
  · exact ((applyCondition_dispatch_spec ⟨"T", some ⟨"u", []⟩⟩
      { effectType := .condition, effectCondition := some "spell_locked" } .none .none
      "spell_locked" ⟨"u", []⟩ rfl (by decide) rfl).2 (by decide)).1

open EffectsManager in
/-- C10: `handleSaveEffect` runs the nested damage handling with no
source item (its signature does not even receive one), so a nested
digits-then-W or digits-then-S formula always resolves with the no-item
default die (`d6` / `d8`) and a nested damage type of `weapon` or
`spell` always resolves to the no-item fallback (`bludgeoning` /
`force`), whatever item triggered the result. -/
theorem handleSaveEffect_no_item_spec :
    ∀ (token : Token) (cfg : TableEffectConfig) (icon : Option String)
      (combat : Option Combat) (dc : ℚ) (ability formula : String) (actor : Actor),
      cfg.saveDC = some dc → dc ≠ 0 → cfg.saveAbility = some ability →
      ability ≠ "" → token.actor = some actor →
      cfg.damageFormula = some formula → formula ≠ "" →
      (handleSaveEffect token cfg icon combat =
        (if strTruthy cfg.effectCondition then
          applyCondition token cfg icon combat else [])
          ++ applyDamage token cfg .none)
      ∧ applyDamage token cfg .none =
          [HostCall.applyTokenDamage (resolveWeaponDiceFormula formula .none)
            (resolveDamageType cfg .none)]
      ∧ (∀ ds c, ds ≠ [] → ds.all Char.isDigit = true → (c = 'W' ∨ c = 'w') →
          formula = String.mk (ds ++ [c]) →
          resolveWeaponDiceFormula formula .none = toString (digitsVal ds) ++ "d6")
      ∧ (∀ ds c, ds ≠ [] → ds.all Char.isDigit = true → (c = 'S' ∨ c = 's') →
          formula = String.mk (ds ++ [c]) →
          resolveWeaponDiceFormula formula .none = toString (digitsVal ds) ++ "d8")
      ∧ (cfg.damageType = some "weapon" → resolveDamageType cfg .none = "bludgeoning")
      ∧ (cfg.damageType = some "spell" → resolveDamageType cfg .none = "force") := by
  intro token cfg icon combat dc ability formula actor
  intro hdc hdc0 hab hab0 hactor hform hform0
  refine ⟨?_, ?_, ?_, ?_, ?_, ?_⟩
  · simp only [handleSaveEffect, dcTruthy, hdc, hab, hactor]
    rw [if_pos]
    · congr 1
      rw [if_pos]
      simp [strTruthy, hform, hform0]
    · refine ⟨by simp [hdc0], by simp [strTruthy, hab, hab0], by simp⟩
  · simp [applyDamage, hform, hactor, hform0]
  · intro ds c hne hdig hc hf
    subst hf
    exact resolveWeaponDiceFormula_concatW ds c .none hne hdig hc
  · intro ds c hne hdig hc hf
    subst hf
    exact resolveWeaponDiceFormula_concatS ds c .none hne hdig hc
  · intro hw
    simp [resolveDamageType, orDefault, hw]
  · intro hs
    simp [resolveDamageType, orDefault, hs]

open EffectsManager in
/-- Witness for C10: a save entry with nested formula `2W` and damage
type `weapon` resolves to `2d6` bludgeoning even though a `1d8`
slashing weapon triggered the fumble. -/
theorem handleSaveEffect_no_item_spec_witness :
    handleSaveEffect ⟨"T", some ⟨"u", []⟩⟩
        { effectType := .save, saveDC := some 14, saveAbility := some "dex",
          damageFormula := some "2W", damageType := some "weapon" } .none .none =
      [HostCall.applyTokenDamage "2d6" "bludgeoning"] := by
  have h := handleSaveEffect_no_item_spec ⟨"T", some ⟨"u", []⟩⟩
    { effectType := .save, saveDC := some 14, saveAbility := some "dex",
      damageFormula := some "2W", damageType := some "weapon" } .none .none
    14 "dex" "2W" ⟨"u", []⟩ rfl (by norm_num) rfl (by decide) rfl rfl (by decide)
  rw [h.1]
  rw [h.2.1]
  have hW := h.2.2.1 ['2'] 'W' (by decide) (by decide) (Or.inl rfl) rfl
  have hT := h.2.2.2.2.1 rfl
  rw [hW, hT]
  rfl

open EffectsManager in
/-- Counterexample to C4: a penalty effect with duration `0` does not
get the `turns: 1` block the claim assigns to duration `0` for penalty
and condition documents alike; the penalty builder has no
until-end-of-turn case and instead emits `rounds: 0`. -/
theorem durationSentinel_cex :
    (penaltyDurationData 0 .none).turns = .none
      ∧ (penaltyDurationData 0 .none).rounds = some (some 0)
      ∧ (penaltyDurationData 0 .none).turns ≠ some 1
      ∧ (conditionDurationData 0 .none).turns = some 1
      ∧ applyPenalty ⟨"T", some ⟨"u", []⟩⟩
          { effectType := .penalty, penaltyType := some "ac",
            penaltyValue := some (-2), duration := some 0 } .none .none =
        [HostCall.createEffect {
          name := "Armor Damaged", icon := "icons/svg/downgrade.svg",
          origin := "u",
          changes := [{ key := "system.attributes.ac.bonus", mode := .ADD, value := "-2" }],
          duration := penaltyDurationData 0 .none }] := by
  refine ⟨rfl, rfl, by decide, rfl, ?_⟩
  rfl

open EffectsManager in
/-- C4 amended: condition documents interpret the duration sentinel as
`-1` giving null seconds and rounds, `0` giving one turn anchored to
the current combat turn and round, and `N > 0` giving `N` rounds;
penalty documents share the `-1` (permanent) case but map every other
duration `d` — including `0` — to `rounds: d`; a penalty with no
configured duration defaults to permanent (`-1`). -/
theorem durationSentinel_spec :
    ∀ (d : ℤ) (combat : Option Combat),
      conditionDurationData (-1) combat =
        { seconds := some .none, rounds := some .none }
      ∧ conditionDurationData 0 combat =
        { turns := some 1, startTurn := some (curTurn combat),
          startRound := some (curRound combat) }
      ∧ (0 < d → conditionDurationData d combat =
        { rounds := some (some d), startRound := some (curRound combat),
          startTurn := some (curTurn combat) })
      ∧ penaltyDurationData (-1) combat =
        { seconds := some .none, rounds := some .none }
      ∧ (d ≠ -1 → penaltyDurationData d combat =
        { rounds := some (some d), startRound := some (curRound combat),
          startTurn := some (curTurn combat) })
      ∧ (∀ (token : Token) (cfg : TableEffectConfig) (icon : Option String)
          (actor : Actor) (pt : String) (pv : ℤ),
          token.actor = some actor → cfg.penaltyType = some pt → pt ≠ "" →
          cfg.penaltyValue = some pv → cfg.duration = .none →
          ∃ doc, applyPenalty token cfg icon combat = [HostCall.createEffect doc]
            ∧ doc.duration = penaltyDurationData (-1) combat) := by
  intro d combat
  refine ⟨rfl, rfl, ?_, rfl, ?_, ?_⟩
  · intro hd
    rw [conditionDurationData, if_neg (by omega), if_neg (by omega)]
  · intro hd
    rw [penaltyDurationData, if_neg hd]
  · intro token cfg icon actor pt pv hactor hpt hpt0 hpv hdur
    refine ⟨{ name := if pt = "ac" then "Armor Damaged" else "Weapon Damaged",
              icon := orDefault icon "icons/svg/downgrade.svg",
              origin := actor.uuid,
              changes := [{ key := if pt = "ac" then "system.attributes.ac.bonus"
                              else "system.bonuses.All.attack",
                            mode := .ADD, value := toString pv }],
              duration := penaltyDurationData (-1) combat }, ?_, rfl⟩
    by_cases hac : pt = "ac" <;>
      simp [applyPenalty, hactor, hpt, hpv, hpt0, hdur, hac]

open EffectsManager in
/-- Witness for the amended C4: duration 5 gives 5 rounds on both
builders, and a penalty with no duration builds a permanent document. -/
theorem durationSentinel_spec_witness :
    conditionDurationData 5 .none =
      { rounds := some (some 5), startRound := some 0, startTurn := some 0 }
      ∧ penaltyDurationData 5 .none =
        { rounds := some (some 5), startRound := some 0, startTurn := some 0 }
      ∧ ∃ doc, applyPenalty ⟨"T", some ⟨"u", []⟩⟩
          { effectType := .penalty, penaltyType := some "attack",
            penaltyValue := some (-1) } .none .none = [HostCall.createEffect doc]
          ∧ doc.duration = penaltyDurationData (-1) .none :=
  ⟨(durationSentinel_spec 5 .none).2.2.1 (by norm_num),
   (durationSentinel_spec 5 .none).2.2.2.2.1 (by norm_num),
   (durationSentinel_spec 5 .none).2.2.2.2.2 ⟨"T", some ⟨"u", []⟩⟩
     { effectType := .penalty, penaltyType := some "attack", penaltyValue := some (-1) }
     .none ⟨"u", []⟩ "attack" (-1) rfl rfl (by decide) rfl rfl⟩

open EffectsManager in
/-- Counterexample to C5: the change entries built for an
advantage/disadvantage effect carry the host's CUSTOM change mode, not
OVERRIDE as the claim states. -/
theorem buildAdvantageChanges_cex :
    buildAdvantageChanges ["all"] "advantage" "self" =
      [{ key := "flags.midi-qol.advantage.all", mode := Mode.CUSTOM, value := "1" }]
      ∧ (buildAdvantageChanges ["all"] "advantage" "self").map Change.mode =
        [Mode.CUSTOM]
      ∧ Mode.CUSTOM ≠ Mode.OVERRIDE := by
  refine ⟨rfl, rfl, by decide⟩

open EffectsManager in
/-- C5 amended: the change-set is the union (concatenation) of the flag
keys expanded from each scope token, every change entry carrying value
`"1"` in the host's CUSTOM change mode (not override); a key carries
the `grants.` segment exactly when the configured target is grants; and
the effect document built with no configured duration defaults to a
1-round duration. -/
theorem advantageChanges_spec :
    ∀ (scopes : List String) (ty target : String),
      buildAdvantageChanges scopes ty target =
        (scopes.flatMap (fun scope => scopeToMidiFlags scope ty target)).map
          (fun key => { key := key, mode := Mode.CUSTOM, value := "1" })
      ∧ ((ty = "advantage" ∨ ty = "disadvantage") →
          ∀ scope, ∀ k ∈ scopeToMidiFlags scope ty target,
            ("flags.midi-qol.grants.".toList.isPrefixOf k.toList = true
              ↔ target = "grants"))
      ∧ (∀ (token : Token) (cfg : TableEffectConfig) (icon : Option String)
          (combat : Option Combat) (actor : Actor) (sf : ScopeField),
          token.actor = some actor → cfg.advantageScope = some sf →
          scopeFieldTruthy sf = true → cfg.duration = .none →
          buildAdvantageChanges (scopeFieldList sf) ty
            (cfg.advantageTarget.getD "self") ≠ [] →
          ∃ doc, applyAdvantageDisadvantage token cfg ty icon combat =
              [HostCall.createEffect doc]
            ∧ doc.duration = advDurationData 1 combat
            ∧ advDurationData 1 combat =
              { rounds := some (some 1), startRound := some (curRound combat),
                startTurn := some (curTurn combat) }) := by
  intro scopes ty target
  refine ⟨?_, ?_, ?_⟩
  · rw [List.map_flatMap]
    rfl
  · intro hty scope k hk
    rcases hty with h | h <;> subst h <;> by_cases hg : target = "grants" <;>
      simp only [scopeToMidiFlags, hg, if_true, if_false, ite_true, ite_false] at hk <;>
      split at hk <;> simp_all
  · intro token cfg icon combat actor sf hactor hscope htruthy hdur hchanges
    refine ⟨{ name := cfg.effectName.getD (generateAdvantageEffectName ty
                (scopeFieldList sf) (cfg.advantageTarget.getD "self")),
              icon := orDefault icon (getAdvantageIcon ty),
              origin := actor.uuid,
              changes := buildAdvantageChanges (scopeFieldList sf) ty
                (cfg.advantageTarget.getD "self"),
              duration := advDurationData 1 combat }, ?_, rfl, rfl⟩
    simp [applyAdvantageDisadvantage, hactor, hscope, htruthy, hdur, hchanges]

open EffectsManager in
/-- Witness for the amended C5: a grants-targeted advantage on all
attacks produces the grants-prefixed key with a CUSTOM-mode value and a
1-round default duration. -/
theorem advantageChanges_spec_witness :
    ("flags.midi-qol.grants.".toList.isPrefixOf
        "flags.midi-qol.grants.advantage.attack.all".toList = true
      ↔ ("grants" : String) = "grants")
    ∧ (∃ doc, applyAdvantageDisadvantage ⟨"T", some ⟨"u", []⟩⟩
        { effectType := .advantage, advantageScope := some (.one "attack.all"),
          advantageTarget := some "grants" } "advantage" .none .none =
          [HostCall.createEffect doc]
        ∧ doc.duration = advDurationData 1 .none
        ∧ advDurationData 1 .none =
          { rounds := some (some 1), startRound := some 0, startTurn := some 0 }) := by
  constructor
  · exact (advantageChanges_spec ["attack.all"] "advantage" "grants").2.1
      (Or.inl rfl) "attack.all" "flags.midi-qol.grants.advantage.attack.all"
      (by decide)
  · exact (advantageChanges_spec ["attack.all"] "advantage" "grants").2.2
      ⟨"T", some ⟨"u", []⟩⟩
      { effectType := .advantage, advantageScope := some (.one "attack.all"),
        advantageTarget := some "grants" } .none .none ⟨"u", []⟩
      (.one "attack.all") rfl rfl (by decide) rfl (by decide)
